import Mathlib

/-!
Shallow embedding of the TSA_screen tactical display engine
(src/diagramwidget.h, src/diagramwidget.cpp, src/main.cpp).

Qt floating-point values are modelled as real numbers.  QPointF, QRectF,
QSize and the affine QTransform chains built by the code are modelled as
explicit record types, and the C library function atan2 (called through
qAtan2) is modelled by its standard piecewise arctan definition.
-/

namespace TSA

/-- Model of QPointF: a 2-d point with real coordinates. -/
structure QPointF where
  x : ℝ
  y : ℝ

/-- Model of QRectF as the code uses it: left, top, width, height. -/
structure QRectF where
  left : ℝ
  top : ℝ
  width : ℝ
  height : ℝ

/-- Model of QSize (the widget / viewport size). -/
structure QSize where
  width : ℝ
  height : ℝ

/-- An axis-aligned affine map, p ↦ (sx·p.x + tx, sy·p.y + ty).  The code only
composes scales and translations, so every QTransform it builds has this form. -/
structure AffineMap2 where
  sx : ℝ
  sy : ℝ
  tx : ℝ
  ty : ℝ

/-- Apply an affine map to a point (QTransform::map). -/
def AffineMap2.mapP (m : AffineMap2) (p : QPointF) : QPointF :=
  ⟨m.sx * p.x + m.tx, m.sy * p.y + m.ty⟩

/-- QTransform::inverted: the exact inverse when the determinant is nonzero,
the identity transform otherwise. -/
noncomputable def AffineMap2.inverted (m : AffineMap2) : AffineMap2 :=
  if m.sx = 0 ∨ m.sy = 0 then ⟨1, 1, 0, 0⟩
  else ⟨1 / m.sx, 1 / m.sy, -m.tx / m.sx, -m.ty / m.sy⟩

/-- DisplayTransform state: forward map, inverse map, stored bounds and size
(fields worldToScreen, screenToWorld, worldBounds, screenSize of the class). -/
structure DisplayTransform where
  worldToScreen : AffineMap2
  screenToWorld : AffineMap2
  worldBounds : QRectF
  screenSize : QSize

/-- The forward map built by the maintain-aspect-ratio branch of
DisplayTransform::updateTransform: scale = min(scaleX, scaleY), centering
offsets, composed as fromTranslate(offsetX, offsetY).scale(scale, scale)
.translate(-left, -top). -/
noncomputable def aspectForwardMap (screenSize : QSize) (worldBounds : QRectF) : AffineMap2 :=
  let scaleX := screenSize.width / worldBounds.width
  let scaleY := screenSize.height / worldBounds.height
  let scale := min scaleX scaleY
  let offsetX := (screenSize.width - worldBounds.width * scale) / 2
  let offsetY := (screenSize.height - worldBounds.height * scale) / 2
  ⟨scale, scale, offsetX - scale * worldBounds.left, offsetY - scale * worldBounds.top⟩

/-- The forward map built by the stretch branch of updateTransform. -/
noncomputable def stretchForwardMap (screenSize : QSize) (worldBounds : QRectF) : AffineMap2 :=
  ⟨screenSize.width / worldBounds.width, screenSize.height / worldBounds.height,
   -(screenSize.width / worldBounds.width * worldBounds.left),
   -(screenSize.height / worldBounds.height * worldBounds.top)⟩

/-- DisplayTransform::updateTransform: unconditionally stores the widget size
and bounds, rebuilds the forward map per the chosen branch, and stores its
inverse.  There is no validation of the arguments. -/
noncomputable def updateTransform (widgetSize : QSize) (bounds : QRectF)
    (maintainAspect : Bool) : DisplayTransform :=
  let worldToScreen :=
    if maintainAspect then aspectForwardMap widgetSize bounds
    else stretchForwardMap widgetSize bounds
  { worldToScreen := worldToScreen
    screenToWorld := worldToScreen.inverted
    worldBounds := bounds
    screenSize := widgetSize }

/-- DisplayTransform::mapToScreen. -/
def DisplayTransform.mapToScreen (t : DisplayTransform) (p : QPointF) : QPointF :=
  t.worldToScreen.mapP p

/-- DisplayTransform::mapToWorld. -/
def DisplayTransform.mapToWorld (t : DisplayTransform) (p : QPointF) : QPointF :=
  t.screenToWorld.mapP p

/-- DisplayTransform::setWorldBounds: stores the bounds and recomputes with
maintainAspectRatio = true. -/
noncomputable def DisplayTransform.setWorldBounds (t : DisplayTransform)
    (bounds : QRectF) : DisplayTransform :=
  updateTransform t.screenSize bounds true

/-- The DisplayTransform constructor: bounds (-10,-10,20,20), size 800×600,
recomputed with maintainAspectRatio = true. -/
noncomputable def DisplayTransform.init : DisplayTransform :=
  updateTransform ⟨800, 600⟩ ⟨-10, -10, 20, 20⟩ true

/-- TSAWidget::resizeEvent: recomputes the transform for the new size with the
stored bounds and maintainAspectRatio = true. -/
noncomputable def resizeEventTransform (t : DisplayTransform) (newSize : QSize) :
    DisplayTransform :=
  updateTransform newSize t.worldBounds true

/-- The produced transform is the aspect-preserving (min-scale, centered) one
for its stored size and bounds. -/
def DisplayTransform.isAspectPreserving (t : DisplayTransform) : Prop :=
  t.worldToScreen = aspectForwardMap t.screenSize t.worldBounds

/-- qDegreesToRadians. -/
noncomputable def qDegreesToRadians (d : ℝ) : ℝ := d * (Real.pi / 180)

/-- qRadiansToDegrees. -/
noncomputable def qRadiansToDegrees (r : ℝ) : ℝ := r * (180 / Real.pi)

/-- The C library atan2(y, x) called by qAtan2, in its standard piecewise
arctan form (with atan2(0, 0) = 0). -/
noncomputable def atan2 (y x : ℝ) : ℝ :=
  if 0 < x then Real.arctan (y / x)
  else if x < 0 then
    if 0 ≤ y then Real.arctan (y / x) + Real.pi else Real.arctan (y / x) - Real.pi
  else
    if 0 < y then Real.pi / 2 else if y < 0 then -(Real.pi / 2) else 0

/-- Model of the SonarBeam struct (geometric fields). -/
structure SonarBeam where
  startPoint : QPointF
  endPoint : QPointF
  width : ℝ

/-- Model of the TacticalDisplay struct (geometric and kinematic fields;
colors and pen widths are display styling and carry no geometric content). -/
structure TacticalDisplay where
  ownShipPosition : QPointF
  ownShipBearing : ℝ
  ownShipSpeed : ℝ
  sonarBeam : SonarBeam
  targetBearing : ℝ
  targetRange : ℝ
  bearingRate : ℝ

/-- Widget state relevant to the engine: tactical data, transform, and
simulation time. -/
structure TSAState where
  tacticalData : TacticalDisplay
  transform : DisplayTransform
  simulationTime : ℝ

/-- The state built by the TSAWidget constructor: own ship at (0,0), heading 0,
10 knots; sonar beam (80,480)–(720,80); TacticalDisplay defaults targetBearing
45, targetRange 4, bearingRate 0; world bounds (-10,-10,20,20);
simulationTime 0. -/
noncomputable def initTSAState : TSAState :=
  { tacticalData :=
    { ownShipPosition := ⟨0, 0⟩
      ownShipBearing := 0
      ownShipSpeed := 10
      sonarBeam := ⟨⟨80, 480⟩, ⟨720, 80⟩, 2⟩
      targetBearing := 45
      targetRange := 4
      bearingRate := 0 }
    transform := DisplayTransform.init.setWorldBounds ⟨-10, -10, 20, 20⟩
    simulationTime := 0 }

/-- TSAWidget::updateTarget: overwrite the three target fields. -/
def updateTarget (s : TSAState) (bearing range bearingRate : ℝ) : TSAState :=
  { s with tacticalData :=
    { s.tacticalData with
        targetBearing := bearing
        targetRange := range
        bearingRate := bearingRate } }

/-- The bearing expression of TSAWidget::updateSimulation (line 222):
qRadiansToDegrees(qAtan2(dx, dy)), with no further normalisation. -/
noncomputable def bearingCode (dx dy : ℝ) : ℝ := qRadiansToDegrees (atan2 dx dy)

/-- TSAWidget::updateSimulation: adds a fixed 2 s, recomputes the target
position (3 + 8·t, 3) from simulated time t in hours, and stores range,
bearing, and the constant bearing rate 0.05 via updateTarget.  Own ship is
not moved. -/
noncomputable def updateSimulation (s : TSAState) : TSAState :=
  let simulationTime := s.simulationTime + 2
  let t := simulationTime / 3600
  let targetX := 3 + 8 * t
  let targetY : ℝ := 3
  let dx := targetX
  let dy := targetY
  let newRange := Real.sqrt (dx * dx + dy * dy)
  let newBearing := bearingCode dx dy
  updateTarget { s with simulationTime := simulationTime } newBearing newRange 0.05

/-- TSAWidget::updateSonarBeam: beam of length 10 nm from the origin, end
point (10·sin(bearing), −10·cos(bearing)) in world coordinates. -/
noncomputable def updateSonarBeam (s : TSAState) (bearing width : ℝ) : TSAState :=
  let beamLength : ℝ := 10
  let startP : QPointF := ⟨0, 0⟩
  let endP : QPointF :=
    ⟨beamLength * Real.sin (qDegreesToRadians bearing),
     -(beamLength * Real.cos (qDegreesToRadians bearing))⟩
  { s with tacticalData :=
    { s.tacticalData with sonarBeam := ⟨startP, endP, width⟩ } }

/-- TSAWidget::setWorldBounds: forwards to the transform. -/
noncomputable def widgetSetWorldBounds (s : TSAState) (bounds : QRectF) : TSAState :=
  { s with transform := s.transform.setWorldBounds bounds }

/-- The widget resize handler applied to the widget state. -/
noncomputable def widgetResizeEvent (s : TSAState) (newSize : QSize) : TSAState :=
  { s with transform := resizeEventTransform s.transform newSize }

/-- A run of the simulation: the timer fires updateSimulation once per entry
of the schedule; updateSimulation reads no data from the trigger. -/
noncomputable def runSimulation (s : TSAState) (dts : List ℝ) : TSAState :=
  dts.foldl (fun st _ => updateSimulation st) s

/-- The cross-product side test of drawOneSidedShadedRegion. -/
def sideTest (lineStart lineEnd pt : QPointF) : ℝ :=
  (lineEnd.x - lineStart.x) * (pt.y - lineStart.y) -
    (lineEnd.y - lineStart.y) * (pt.x - lineStart.x)

/-- The polygon built by TSAWidget::drawOneSidedShadedRegion for a w×h
viewport: all rectangle corners strictly on the shaded side (the side opposite
shipPos), in the fixed corner order, followed by the endpoints of the line
offset 48 px perpendicular away from the ship side (offsetEnd first, then
offsetStart). -/
noncomputable def shadedPolygon (w h : ℝ) (lineStart lineEnd shipPos : QPointF) :
    List QPointF :=
  let shipOnLeft : Prop := 0 < sideTest lineStart lineEnd shipPos
  let shadeLeft : Prop := ¬shipOnLeft
  let halfInchPixels : ℝ := 48
  let lineLength := Real.sqrt ((lineEnd.x - lineStart.x) ^ 2 + (lineEnd.y - lineStart.y) ^ 2)
  let perpVector : QPointF :=
    ⟨-(lineEnd.y - lineStart.y) / lineLength, (lineEnd.x - lineStart.x) / lineLength⟩
  let offsetDirection : QPointF :=
    if shadeLeft then perpVector else ⟨-perpVector.x, -perpVector.y⟩
  let offsetStart : QPointF :=
    ⟨lineStart.x + offsetDirection.x * halfInchPixels,
     lineStart.y + offsetDirection.y * halfInchPixels⟩
  let offsetEnd : QPointF :=
    ⟨lineEnd.x + offsetDirection.x * halfInchPixels,
     lineEnd.y + offsetDirection.y * halfInchPixels⟩
  let cornerPart : List QPointF :=
    (if (0 < sideTest lineStart lineEnd ⟨0, 0⟩) ↔ shadeLeft then [(⟨0, 0⟩ : QPointF)] else []) ++
    (if (0 < sideTest lineStart lineEnd ⟨w, 0⟩) ↔ shadeLeft then [(⟨w, 0⟩ : QPointF)] else []) ++
    (if (0 < sideTest lineStart lineEnd ⟨w, h⟩) ↔ shadeLeft then [(⟨w, h⟩ : QPointF)] else []) ++
    (if (0 < sideTest lineStart lineEnd ⟨0, h⟩) ↔ shadeLeft then [(⟨0, h⟩ : QPointF)] else [])
  cornerPart ++ [offsetEnd, offsetStart]

/-- The arrowhead wing points computed by TSAWidget::drawSimpleArrow:
shaft angle via qAtan2, head length 12, head angle 25°, wings at
to + 12·(cos, sin)(angle + π ∓ 25°). -/
noncomputable def computeArrowHead (fromP toP : QPointF) : QPointF × QPointF :=
  let angle := atan2 (toP.y - fromP.y) (toP.x - fromP.x)
  let headLen : ℝ := 12
  let headAngle := qDegreesToRadians 25
  (⟨toP.x + headLen * Real.cos (angle + Real.pi - headAngle),
    toP.y + headLen * Real.sin (angle + Real.pi - headAngle)⟩,
   ⟨toP.x + headLen * Real.cos (angle + Real.pi + headAngle),
    toP.y + headLen * Real.sin (angle + Real.pi + headAngle)⟩)

/-- Modelled from the spec: normalize0_360(b) adds 360 if b is negative.
(No such normalisation exists in the source; used to compare the spec's
bearing contract with the code.) -/
noncomputable def normalize0_360 (b : ℝ) : ℝ := if b < 0 then b + 360 else b

/-- Modelled from the spec: bearing(x, y) = normalize0_360(toDegrees(atan2(x, y))). -/
noncomputable def specBearing (x y : ℝ) : ℝ :=
  normalize0_360 (qRadiansToDegrees (atan2 x y))

/-- Modelled from the spec: wrap180 subtracts 360 above 180 and adds 360
below −180. -/
noncomputable def wrap180 (r : ℝ) : ℝ :=
  if 180 < r then r - 360 else if r < -180 then r + 360 else r

/-- Modelled from the spec: bearingRate(current, previous, dt) =
wrap180((current − previous) / dt).  (No such computation exists in the
kinematics step of the source.) -/
noncomputable def specBearingRate (current previous dt : ℝ) : ℝ :=
  wrap180 ((current - previous) / dt)

/-- Modelled from the spec: own ship advanced along courseDeg at speedKnots
for dt/3600 hours, with x = east, y = north and the course measured clockwise
from north.  (The source never moves own ship.) -/
noncomputable def specOwnShipAfterTick (s : TSAState) (dt : ℝ) : QPointF :=
  ⟨s.tacticalData.ownShipPosition.x +
      s.tacticalData.ownShipSpeed * dt / 3600 *
        Real.sin (qDegreesToRadians s.tacticalData.ownShipBearing),
   s.tacticalData.ownShipPosition.y +
      s.tacticalData.ownShipSpeed * dt / 3600 *
        Real.cos (qDegreesToRadians s.tacticalData.ownShipBearing)⟩

/-- A state with a stored target bearing of 145°, as set through the public
updateTarget API, used to exercise the bearing-rate contract. -/
noncomputable def stateBearing145 : TSAState := updateTarget initTSAState 145 4 0

/-! ## Helper lemmas -/

lemma AffineMap2.roundtrip (m : AffineMap2) (p : QPointF)
    (hx : m.sx ≠ 0) (hy : m.sy ≠ 0) : m.inverted.mapP (m.mapP p) = p := by
  have hne : ¬(m.sx = 0 ∨ m.sy = 0) := by
    push_neg
    exact ⟨hx, hy⟩
  cases p with
  | mk px py =>
    simp only [AffineMap2.inverted, AffineMap2.mapP, if_neg hne, QPointF.mk.injEq]
    constructor <;> field_simp

lemma updateSimulation_simulationTime (s : TSAState) :
    (updateSimulation s).simulationTime = s.simulationTime + 2 := rfl

lemma updateSimulation_targetBearing (s : TSAState) :
    (updateSimulation s).tacticalData.targetBearing =
      bearingCode (3 + 8 * ((s.simulationTime + 2) / 3600)) 3 := rfl

lemma updateSimulation_targetRange (s : TSAState) :
    (updateSimulation s).tacticalData.targetRange =
      Real.sqrt ((3 + 8 * ((s.simulationTime + 2) / 3600)) *
          (3 + 8 * ((s.simulationTime + 2) / 3600)) + 3 * 3) := rfl

lemma runSimulation_simulationTime (dts : List ℝ) (s : TSAState) :
    (runSimulation s dts).simulationTime = s.simulationTime + 2 * dts.length := by
  induction dts generalizing s with
  | nil => simp [runSimulation]
  | cons d ds ih =>
    have h : runSimulation s (d :: ds) = runSimulation (updateSimulation s) ds := rfl
    rw [h, ih, updateSimulation_simulationTime, List.length_cons]
    push_cast
    ring

lemma bearingCode_bounds {dx : ℝ} (hdx : 0 < dx) :
    0 < bearingCode dx 3 ∧ bearingCode dx 3 < 90 := by
  have h3 : (0:ℝ) < 3 := by norm_num
  have hb : atan2 dx 3 = Real.arctan (dx / 3) := by
    simp only [atan2, if_pos h3]
  have hpi : 0 < Real.pi := Real.pi_pos
  have ha0 : 0 < Real.arctan (dx / 3) := by
    have := Real.arctan_strictMono (show (0:ℝ) < dx / 3 from div_pos hdx h3)
    rwa [Real.arctan_zero] at this
  have ha1 : Real.arctan (dx / 3) < Real.pi / 2 := Real.arctan_lt_pi_div_two _
  unfold bearingCode qRadiansToDegrees
  rw [hb]
  constructor
  · positivity
  · have hmul : Real.arctan (dx / 3) * (180 / Real.pi) <
        (Real.pi / 2) * (180 / Real.pi) := by
      apply mul_lt_mul_of_pos_right ha1
      positivity
    have h90 : (Real.pi / 2) * (180 / Real.pi) = 90 := by
      field_simp
      ring
    linarith

lemma atan2_sin_cos {θ : ℝ} (h1 : -Real.pi < θ) (h2 : θ ≤ Real.pi) :
    atan2 (Real.sin θ) (Real.cos θ) = θ := by
  have hpi : 0 < Real.pi := Real.pi_pos
  rcases lt_trichotomy (Real.cos θ) 0 with hc | hc | hc
  · rcases le_or_lt 0 (Real.sin θ) with hs | hs
    · -- cos θ < 0, sin θ ≥ 0: θ ∈ (π/2, π]
      have hθ0 : 0 ≤ θ := by
        by_contra hneg
        push_neg at hneg
        have := Real.sin_neg_of_neg_of_neg_pi_lt hneg h1
        linarith
      have hθ1 : Real.pi / 2 < θ := by
        by_contra hle
        push_neg at hle
        have : 0 ≤ Real.cos θ :=
          Real.cos_nonneg_of_mem_Icc ⟨by linarith, hle⟩
        linarith
      have hbranch : atan2 (Real.sin θ) (Real.cos θ) =
          Real.arctan (Real.sin θ / Real.cos θ) + Real.pi := by
        simp only [atan2, if_neg hc.not_lt, if_pos hc, if_pos hs]
      rw [hbranch, ← Real.tan_eq_sin_div_cos, ← Real.tan_periodic.sub_eq θ,
        Real.arctan_tan (by linarith) (by linarith)]
      ring
    · -- cos θ < 0, sin θ < 0: θ ∈ (−π, −π/2)
      have hθ0 : θ < 0 := by
        by_contra hge
        push_neg at hge
        have := Real.sin_nonneg_of_nonneg_of_le_pi hge h2
        linarith
      have hθ1 : θ < -(Real.pi / 2) := by
        by_contra hge
        push_neg at hge
        have : 0 ≤ Real.cos θ :=
          Real.cos_nonneg_of_mem_Icc ⟨hge, by linarith⟩
        linarith
      have hbranch : atan2 (Real.sin θ) (Real.cos θ) =
          Real.arctan (Real.sin θ / Real.cos θ) - Real.pi := by
        simp only [atan2, if_neg hc.not_lt, if_pos hc, if_neg hs.not_le]
      have hper : Real.tan (θ + Real.pi) = Real.tan θ := Real.tan_periodic θ
      rw [hbranch, ← Real.tan_eq_sin_div_cos, ← hper,
        Real.arctan_tan (by linarith) (by linarith)]
      ring
  · -- cos θ = 0: θ = π/2 or θ = −π/2
    have hθ : θ = Real.pi / 2 ∨ θ = -(Real.pi / 2) := by
      rcases lt_trichotomy θ (Real.pi / 2) with h | h | h
      · rcases lt_trichotomy θ (-(Real.pi / 2)) with g | g | g
        · exfalso
          have hneg : Real.cos (-θ) < 0 :=
            Real.cos_neg_of_pi_div_two_lt_of_lt (by linarith) (by linarith)
          rw [Real.cos_neg] at hneg
          linarith
        · exact Or.inr g
        · exfalso
          have : 0 < Real.cos θ := Real.cos_pos_of_mem_Ioo ⟨g, h⟩
          linarith
      · exact Or.inl h
      · exfalso
        have : Real.cos θ < 0 :=
          Real.cos_neg_of_pi_div_two_lt_of_lt h (by linarith)
        linarith
    rcases hθ with rfl | rfl
    · simp [atan2, Real.sin_pi_div_two, Real.cos_pi_div_two, hpi]
    · simp [atan2, Real.sin_neg, Real.cos_neg, Real.sin_pi_div_two,
        Real.cos_pi_div_two, hpi]
  · -- cos θ > 0: θ ∈ (−π/2, π/2)
    have hθ1 : θ < Real.pi / 2 := by
      by_contra hge
      push_neg at hge
      have : Real.cos θ ≤ 0 :=
        Real.cos_nonpos_of_pi_div_two_le_of_le hge (by linarith)
      linarith
    have hθ0 : -(Real.pi / 2) < θ := by
      by_contra hle
      push_neg at hle
      have hcn : Real.cos (-θ) ≤ 0 :=
        Real.cos_nonpos_of_pi_div_two_le_of_le (by linarith) (by linarith)
      rw [Real.cos_neg] at hcn
      linarith
    simp only [atan2, if_pos hc]
    rw [← Real.tan_eq_sin_div_cos, Real.arctan_tan hθ0 hθ1]

lemma atan2_mul_const {k y x : ℝ} (hk : 0 < k) :
    atan2 (k * y) (k * x) = atan2 y x := by
  have h6 : k * y / (k * x) = y / x := by
    rcases eq_or_ne x 0 with rfl | hx
    · simp
    · field_simp
      ring
  have hx1 : (0 < k * x) ↔ (0 < x) := mul_pos_iff_of_pos_left hk
  have hy1 : (0 ≤ k * y) ↔ (0 ≤ y) := mul_nonneg_iff_of_pos_left hk
  have hx2 : (k * x < 0) ↔ (x < 0) := by
    rw [← not_le, ← not_le]
    exact not_congr (mul_nonneg_iff_of_pos_left hk)
  have hy2 : (0 < k * y) ↔ (0 < y) := mul_pos_iff_of_pos_left hk
  have hy3 : (k * y < 0) ↔ (y < 0) := by
    rw [← not_le, ← not_le]
    exact not_congr (mul_nonneg_iff_of_pos_left hk)
  unfold atan2
  rw [h6]
  simp only [hx1, hx2, hy1, hy2, hy3]

lemma qRadians_qDegrees (b : ℝ) : qRadiansToDegrees (qDegreesToRadians b) = b := by
  unfold qRadiansToDegrees qDegreesToRadians
  field_simp

lemma sqrt569600 : Real.sqrt 569600 = 80 * Real.sqrt 89 := by
  rw [show (569600:ℝ) = 80 ^ 2 * 89 by norm_num,
    Real.sqrt_mul (by positivity) 89, Real.sqrt_sq (by norm_num : (0:ℝ) ≤ 80)]

lemma shadedPolygon_eval :
    shadedPolygon 800 600 ⟨80, 480⟩ ⟨720, 80⟩ ⟨600, 150⟩ =
      [⟨800, 600⟩, ⟨0, 600⟩,
       ⟨720 + 240 / Real.sqrt 89, 80 + 384 / Real.sqrt 89⟩,
       ⟨80 + 240 / Real.sqrt 89, 480 + 384 / Real.sqrt 89⟩] := by
  have h89 : (0:ℝ) < Real.sqrt 89 := Real.sqrt_pos.mpr (by norm_num)
  unfold shadedPolygon sideTest
  norm_num
  rw [sqrt569600]
  repeat' constructor
  all_goals field_simp
  all_goals ring

lemma updateTransform_roundtrip (sz : QSize) (bounds : QRectF) (flag : Bool)
    (p : QPointF) (hbw : 0 < bounds.width) (hbh : 0 < bounds.height)
    (hvw : 0 < sz.width) (hvh : 0 < sz.height) :
    (updateTransform sz bounds flag).mapToWorld
      ((updateTransform sz bounds flag).mapToScreen p) = p := by
  cases flag with
  | false =>
    have hx : (stretchForwardMap sz bounds).sx ≠ 0 := (div_pos hvw hbw).ne'
    have hy : (stretchForwardMap sz bounds).sy ≠ 0 := (div_pos hvh hbh).ne'
    show (stretchForwardMap sz bounds).inverted.mapP
      ((stretchForwardMap sz bounds).mapP p) = p
    exact AffineMap2.roundtrip _ p hx hy
  | true =>
    have hscale : 0 < min (sz.width / bounds.width) (sz.height / bounds.height) :=
      lt_min (div_pos hvw hbw) (div_pos hvh hbh)
    have hx : (aspectForwardMap sz bounds).sx ≠ 0 := hscale.ne'
    have hy : (aspectForwardMap sz bounds).sy ≠ 0 := hscale.ne'
    show (aspectForwardMap sz bounds).inverted.mapP
      ((aspectForwardMap sz bounds).mapP p) = p
    exact AffineMap2.roundtrip _ p hx hy

/-! ## Claim theorems -/

/-- Claim C1 (counterexample): the kinematics step does not advance own ship:
from the constructor state (own ship at the origin, course 0°, speed 10 kn),
one tick leaves own ship's stored world position unchanged, while the spec's
advance (speedKnots·dt/3600 along courseDeg) moves it away from the origin. -/
theorem C1_counterexample :
    (updateSimulation initTSAState).tacticalData.ownShipPosition =
      initTSAState.tacticalData.ownShipPosition ∧
    specOwnShipAfterTick initTSAState 2 ≠
      initTSAState.tacticalData.ownShipPosition := by
  refine ⟨rfl, ?_⟩
  intro h
  have hy := congrArg QPointF.y h
  norm_num [specOwnShipAfterTick, initTSAState, qDegreesToRadians,
    Real.cos_zero] at hy

/-- Claim C1 (amended): the kinematics step never moves own ship; each tick
adds a fixed 2 s and recomputes the target from simulated time t (hours) as
the world point (3 + 8·t, 3) — a target moving due east at 8 kn from (3,3)
past a stationary own ship at the origin — and publishes range
√(x² + y²) and bearing toDegrees(atan2(x, y)) of that point.  In the
scenario, after two ticks (4 simulated seconds) the stored range and bearing
equal the closed forms with x = 677/225, y = 3 exactly. -/
theorem C1_amended :
    (updateSimulation (updateSimulation initTSAState)).tacticalData.targetRange =
      Real.sqrt ((677 / 225) * (677 / 225) + 3 * 3) ∧
    (updateSimulation (updateSimulation initTSAState)).tacticalData.targetBearing =
      bearingCode (677 / 225) 3 ∧
    (updateSimulation (updateSimulation initTSAState)).simulationTime = 4 ∧
    (updateSimulation (updateSimulation initTSAState)).tacticalData.ownShipPosition =
      initTSAState.tacticalData.ownShipPosition := by
  have hdx : (3 : ℝ) + 8 * ((initTSAState.simulationTime + 2 + 2) / 3600) =
      677 / 225 := by
    norm_num [initTSAState]
  refine ⟨?_, ?_, ?_, rfl⟩
  · rw [updateSimulation_targetRange, updateSimulation_simulationTime, hdx]
  · rw [updateSimulation_targetBearing, updateSimulation_simulationTime, hdx]
  · rw [updateSimulation_simulationTime, updateSimulation_simulationTime]
    norm_num [initTSAState]

/-- Claim C4 (counterexample): the engine's bearing expression
toDegrees(atan2(x, y)) is not normalised into [0, 360): at input
(x, y) = (−1, 0) it yields −90, while the spec's normalised bearing is 270. -/
theorem C4_counterexample :
    bearingCode (-1) 0 = -90 ∧ specBearing (-1) 0 = 270 ∧
    bearingCode (-1) 0 ≠ specBearing (-1) 0 := by
  have hat : atan2 (-1) 0 = -(Real.pi / 2) := by
    norm_num [atan2]
  have hdeg : qRadiansToDegrees (-(Real.pi / 2)) = -90 := by
    unfold qRadiansToDegrees
    field_simp
    ring
  have h1 : bearingCode (-1) 0 = -90 := by
    unfold bearingCode
    rw [hat, hdeg]
  have h2 : specBearing (-1) 0 = 270 := by
    unfold specBearing
    rw [hat, hdeg]
    norm_num [normalize0_360]
  refine ⟨h1, h2, ?_⟩
  rw [h1, h2]
  norm_num

/-- Claim C4 (amended): the code computes the bearing as
toDegrees(atan2(x, y)) with no normalisation step; nevertheless, from every
state with non-negative simulation time (which includes every reachable
state), the bearing published by the kinematics step lies in [0, 360),
because the recomputed target offsets x = 3 + 8·t and y = 3 are both
positive. -/
theorem C4_amended (s : TSAState) (h : 0 ≤ s.simulationTime) :
    (updateSimulation s).tacticalData.targetBearing =
      bearingCode (3 + 8 * ((s.simulationTime + 2) / 3600)) 3 ∧
    0 ≤ (updateSimulation s).tacticalData.targetBearing ∧
    (updateSimulation s).tacticalData.targetBearing < 360 := by
  have ht : (0:ℝ) ≤ (s.simulationTime + 2) / 3600 :=
    div_nonneg (by linarith) (by norm_num)
  have hdx : 0 < (3:ℝ) + 8 * ((s.simulationTime + 2) / 3600) := by nlinarith
  obtain ⟨hb0, hb1⟩ := bearingCode_bounds hdx
  rw [updateSimulation_targetBearing]
  exact ⟨rfl, le_of_lt hb0, by linarith⟩

/-- Witness for C4 at the constructor state. -/
theorem C4_witness :
    (updateSimulation initTSAState).tacticalData.targetBearing =
      bearingCode (3 + 8 * ((initTSAState.simulationTime + 2) / 3600)) 3 ∧
    0 ≤ (updateSimulation initTSAState).tacticalData.targetBearing ∧
    (updateSimulation initTSAState).tacticalData.targetBearing < 360 :=
  C4_amended initTSAState (by norm_num [initTSAState])

/-- Claim C5 (counterexample): after a kinematics step from a state whose
stored target bearing is 145° (set through the public updateTarget API), the
stored bearing rate is the hard-coded 0.05°/s, while the spec's
wrap180((newBearing − oldBearing)/dt) value is negative — the stored rate
does not equal the spec formula. -/
theorem C5_counterexample :
    (updateSimulation stateBearing145).tacticalData.bearingRate = 0.05 ∧
    specBearingRate (updateSimulation stateBearing145).tacticalData.targetBearing
      stateBearing145.tacticalData.targetBearing 2 ≠ 0.05 := by
  refine ⟨rfl, ?_⟩
  have hold : stateBearing145.tacticalData.targetBearing = 145 := rfl
  have hdx : (0:ℝ) < 3 + 8 * ((stateBearing145.simulationTime + 2) / 3600) := by
    norm_num [stateBearing145, updateTarget, initTSAState]
  obtain ⟨hb0, hb1⟩ := bearingCode_bounds hdx
  rw [updateSimulation_targetBearing, hold]
  set b := bearingCode (3 + 8 * ((stateBearing145.simulationTime + 2) / 3600)) 3
    with hbdef
  unfold specBearingRate wrap180
  have hr1 : ¬ (180 : ℝ) < (b - 145) / 2 := by push_neg; linarith
  have hr2 : ¬ ((b - 145) / 2 < (-180 : ℝ)) := by push_neg; linarith
  rw [if_neg hr1, if_neg hr2]
  intro hcontr
  have h5 : (0.05 : ℝ) = 1 / 20 := by norm_num
  rw [h5] at hcontr
  linarith

/-- Claim C6: for every configuration with positive world-bounds and viewport
dimensions (either aspect mode) and every world point p inside the bounds,
mapToWorld(mapToScreen(p)) equals p within 1e-6 in each coordinate (the
modelled real-arithmetic round trip is in fact exact). -/
theorem C6_theorem (sz : QSize) (bounds : QRectF) (flag : Bool) (p : QPointF)
    (hbw : 0 < bounds.width) (hbh : 0 < bounds.height)
    (hvw : 0 < sz.width) (hvh : 0 < sz.height)
    (hx1 : bounds.left ≤ p.x) (hx2 : p.x ≤ bounds.left + bounds.width)
    (hy1 : bounds.top ≤ p.y) (hy2 : p.y ≤ bounds.top + bounds.height) :
    |((updateTransform sz bounds flag).mapToWorld
        ((updateTransform sz bounds flag).mapToScreen p)).x - p.x| ≤ 1 / 1000000 ∧
    |((updateTransform sz bounds flag).mapToWorld
        ((updateTransform sz bounds flag).mapToScreen p)).y - p.y| ≤ 1 / 1000000 := by
  rw [updateTransform_roundtrip sz bounds flag p hbw hbh hvw hvh]
  norm_num

/-- Witness for C6 at the constructor configuration and an interior point. -/
theorem C6_witness :
    |((updateTransform ⟨800, 600⟩ ⟨-10, -10, 20, 20⟩ true).mapToWorld
        ((updateTransform ⟨800, 600⟩ ⟨-10, -10, 20, 20⟩ true).mapToScreen ⟨1, 2⟩)).x -
      (⟨1, 2⟩ : QPointF).x| ≤ 1 / 1000000 ∧
    |((updateTransform ⟨800, 600⟩ ⟨-10, -10, 20, 20⟩ true).mapToWorld
        ((updateTransform ⟨800, 600⟩ ⟨-10, -10, 20, 20⟩ true).mapToScreen ⟨1, 2⟩)).y -
      (⟨1, 2⟩ : QPointF).y| ≤ 1 / 1000000 :=
  C6_theorem ⟨800, 600⟩ ⟨-10, -10, 20, 20⟩ true ⟨1, 2⟩ (by norm_num) (by norm_num)
    (by norm_num) (by norm_num) (by norm_num) (by norm_num) (by norm_num) (by norm_num)

/-- Claim C2 (counterexample): calling the transform configuration with a
zero-width bounds rectangle does not keep the previous valid configuration:
the stored world bounds change, so the configuration is not transactional and
no InvalidGeometry rejection exists. -/
theorem C2_counterexample :
    (DisplayTransform.init.setWorldBounds ⟨-10, -10, 0, 20⟩).worldBounds ≠
      DisplayTransform.init.worldBounds := by
  intro h
  have hw := congrArg QRectF.width h
  simp only [DisplayTransform.setWorldBounds, updateTransform,
    DisplayTransform.init] at hw
  norm_num at hw

/-- Claim C2 (amended): updateTransform performs no validation at all: for
every widget size, bounds (including non-positive widths and heights) and
aspect flag it unconditionally overwrites the stored bounds and screen size
with the given arguments and rebuilds the maps; no error is signalled and the
previous configuration is not retained. -/
theorem C2_amended (sz : QSize) (bounds : QRectF) (flag : Bool) :
    (updateTransform sz bounds flag).worldBounds = bounds ∧
    (updateTransform sz bounds flag).screenSize = sz :=
  ⟨rfl, rfl⟩

/-- Claim C5 (amended): the bearing rate stored by the kinematics step is the
hard-coded constant 0.05°/s, for every starting state; no
wrap180((new−old)/dt) computation exists in the step. -/
theorem C5_amended (s : TSAState) :
    (updateSimulation s).tacticalData.bearingRate = 0.05 := rfl

/-- Claim C9: the kinematics step is deterministic: two runs from the same
initial state over the same trigger schedule produce identical states, and
the resulting simulation time is a function of the initial state and the
number of ticks alone (each tick adds exactly 2 s). -/
theorem C9_theorem (s₁ s₂ : TSAState) (dts₁ dts₂ : List ℝ)
    (hs : s₁ = s₂) (hd : dts₁ = dts₂) :
    runSimulation s₁ dts₁ = runSimulation s₂ dts₂ ∧
    (runSimulation s₁ dts₁).simulationTime =
      s₁.simulationTime + 2 * dts₁.length := by
  subst hs
  subst hd
  exact ⟨rfl, runSimulation_simulationTime dts₁ s₁⟩

/-- Witness for C9 at the concrete initial state and a two-tick schedule. -/
theorem C9_witness :
    runSimulation initTSAState [2, 2] = runSimulation initTSAState [2, 2] ∧
    (runSimulation initTSAState [2, 2]).simulationTime =
      initTSAState.simulationTime + 2 * ([2, 2] : List ℝ).length :=
  C9_theorem initTSAState initTSAState [2, 2] [2, 2] rfl rfl

/-- Claim C10: every public path that recomputes the coordinate transform —
the DisplayTransform constructor, setWorldBounds on the transform, the
widget's setWorldBounds, and the widget's resize handler — produces the
aspect-preserving (min-scale, centered) transform for its stored size and
bounds; the stretch branch is not taken on any of these paths. -/
theorem C10_theorem :
    DisplayTransform.init.isAspectPreserving ∧
    (∀ (t : DisplayTransform) (b : QRectF),
      (t.setWorldBounds b).isAspectPreserving) ∧
    (∀ (s : TSAState) (b : QRectF),
      (widgetSetWorldBounds s b).transform.isAspectPreserving) ∧
    (∀ (t : DisplayTransform) (sz : QSize),
      (resizeEventTransform t sz).isAspectPreserving) :=
  ⟨rfl, fun _ _ => rfl, fun _ _ => rfl, fun _ _ => rfl⟩

/-- Claim C3 (counterexample): for the scenario beam (80,480)–(720,80) in the
800×600 viewport with reference point (600,150), the third vertex of the
shaded polygon that the code builds lies strictly off the beam line
(sideTest ≠ 0, so it is not a line–rectangle intersection point) and its
x-coordinate differs from both rectangle corner x-coordinates (so it is not a
rectangle corner): the polygon does not consist of opposite-side corners plus
line–rectangle intersection points. -/
theorem C3_counterexample :
    (⟨720 + 240 / Real.sqrt 89, 80 + 384 / Real.sqrt 89⟩ : QPointF) ∈
      shadedPolygon 800 600 ⟨80, 480⟩ ⟨720, 80⟩ ⟨600, 150⟩ ∧
    sideTest ⟨80, 480⟩ ⟨720, 80⟩
      ⟨720 + 240 / Real.sqrt 89, 80 + 384 / Real.sqrt 89⟩ ≠ 0 ∧
    (720 + 240 / Real.sqrt 89 : ℝ) ≠ 800 ∧
    (720 + 240 / Real.sqrt 89 : ℝ) ≠ 0 := by
  have h89 : (0:ℝ) < Real.sqrt 89 := Real.sqrt_pos.mpr (by norm_num)
  refine ⟨?_, ?_, ?_, ?_⟩
  · rw [shadedPolygon_eval]
    simp
  · unfold sideTest
    have hval : ((720:ℝ) - 80) * ((80:ℝ) + 384 / Real.sqrt 89 - 480) -
        ((80:ℝ) - 480) * ((720:ℝ) + 240 / Real.sqrt 89 - 80) =
        341760 / Real.sqrt 89 := by
      field_simp
      ring
    rw [hval]
    exact (div_pos (by norm_num) h89).ne'
  · intro h
    have h3 : Real.sqrt 89 = 3 := by
      field_simp at h
      linarith
    have h2 := Real.sq_sqrt (show (0:ℝ) ≤ 89 by norm_num)
    rw [h3] at h2
    norm_num at h2
  · have hp : (0:ℝ) < 720 + 240 / Real.sqrt 89 := by positivity
    exact hp.ne'

/-- Claim C3 (amended): the code's shaded polygon for the scenario consists of
the rectangle corners strictly on the side opposite the reference point, in
the fixed corner enumeration order, followed by the beam endpoints offset
48 px perpendicular away from the reference side (offset end first, then
offset start); no line–rectangle intersection or convex-hull ordering step is
applied.  The polygon does contain both complement-side corners (800,600) and
(0,600). -/
theorem C3_amended :
    shadedPolygon 800 600 ⟨80, 480⟩ ⟨720, 80⟩ ⟨600, 150⟩ =
      [⟨800, 600⟩, ⟨0, 600⟩,
       ⟨720 + 240 / Real.sqrt 89, 80 + 384 / Real.sqrt 89⟩,
       ⟨80 + 240 / Real.sqrt 89, 480 + 384 / Real.sqrt 89⟩] ∧
    (⟨800, 600⟩ : QPointF) ∈ shadedPolygon 800 600 ⟨80, 480⟩ ⟨720, 80⟩ ⟨600, 150⟩ ∧
    (⟨0, 600⟩ : QPointF) ∈ shadedPolygon 800 600 ⟨80, 480⟩ ⟨720, 80⟩ ⟨600, 150⟩ := by
  refine ⟨shadedPolygon_eval, ?_, ?_⟩ <;> rw [shadedPolygon_eval] <;> simp

/-- Claim C7 (counterexample): updating the sonar beam with bearing 0 stores
the end point (0, −10), not the spec's (10·sin 0, 10·cos 0) = (0, 10); the
spec bearing of the stored end point under the y-north convention is 180,
which differs from normalize0_360(0) = 0. -/
theorem C7_counterexample :
    (updateSonarBeam initTSAState 0 2).tacticalData.sonarBeam.endPoint =
      (⟨0, -10⟩ : QPointF) ∧
    ((⟨0, -10⟩ : QPointF) ≠ (⟨0, 10⟩ : QPointF)) ∧
    specBearing 0 (-10) = 180 ∧
    normalize0_360 0 = 0 ∧
    (180 : ℝ) ≠ 0 := by
  refine ⟨?_, ?_, ?_, ?_, by norm_num⟩
  · show (⟨10 * Real.sin (qDegreesToRadians 0),
        -(10 * Real.cos (qDegreesToRadians 0))⟩ : QPointF) = ⟨0, -10⟩
    norm_num [qDegreesToRadians]
  · intro h
    have hy := congrArg QPointF.y h
    norm_num at hy
  · have hat : atan2 (0:ℝ) (-10) = Real.pi := by
      norm_num [atan2, Real.arctan_zero]
    unfold specBearing
    rw [hat]
    have hdeg : qRadiansToDegrees Real.pi = 180 := by
      unfold qRadiansToDegrees
      field_simp
    rw [hdeg]
    norm_num [normalize0_360]
  · norm_num [normalize0_360]

/-- Claim C7 (amended): updateSonarBeam places the beam start at the world
origin and the end 10 nm from the origin at (10·sin b, −10·cos b) — the
north component is negated relative to the spec's y-north convention — so
for every bearing b in [0, 360) the compass bearing recovered from
(end.x, −end.y) equals b. -/
theorem C7_amended (s : TSAState) (b w : ℝ) (hb0 : 0 ≤ b) (hb1 : b < 360) :
    (updateSonarBeam s b w).tacticalData.sonarBeam.startPoint = ⟨0, 0⟩ ∧
    (updateSonarBeam s b w).tacticalData.sonarBeam.endPoint =
      ⟨10 * Real.sin (qDegreesToRadians b), -(10 * Real.cos (qDegreesToRadians b))⟩ ∧
    ((updateSonarBeam s b w).tacticalData.sonarBeam.endPoint.x) ^ 2 +
      ((updateSonarBeam s b w).tacticalData.sonarBeam.endPoint.y) ^ 2 = 100 ∧
    specBearing ((updateSonarBeam s b w).tacticalData.sonarBeam.endPoint.x)
      (-((updateSonarBeam s b w).tacticalData.sonarBeam.endPoint.y)) = b := by
  have hpi : 0 < Real.pi := Real.pi_pos
  refine ⟨rfl, rfl, ?_, ?_⟩
  · show (10 * Real.sin (qDegreesToRadians b)) ^ 2 +
      (-(10 * Real.cos (qDegreesToRadians b))) ^ 2 = 100
    have hsc := Real.sin_sq_add_cos_sq (qDegreesToRadians b)
    nlinarith [hsc]
  · show specBearing (10 * Real.sin (qDegreesToRadians b))
      (-(-(10 * Real.cos (qDegreesToRadians b)))) = b
    rw [neg_neg]
    unfold specBearing
    rw [atan2_mul_const (show (0:ℝ) < 10 by norm_num)]
    have hθ0 : (0:ℝ) ≤ qDegreesToRadians b := by
      unfold qDegreesToRadians
      positivity
    rcases le_or_lt b 180 with hb | hb
    · have hθ1 : qDegreesToRadians b ≤ Real.pi := by
        unfold qDegreesToRadians
        nlinarith
      rw [atan2_sin_cos (by linarith) hθ1, qRadians_qDegrees]
      unfold normalize0_360
      rw [if_neg (not_lt.mpr hb0)]
    · have hsin : Real.sin (qDegreesToRadians b) =
          Real.sin (qDegreesToRadians b - 2 * Real.pi) :=
        (Real.sin_sub_two_pi _).symm
      have hcos : Real.cos (qDegreesToRadians b) =
          Real.cos (qDegreesToRadians b - 2 * Real.pi) :=
        (Real.cos_sub_two_pi _).symm
      rw [hsin, hcos]
      have hgt : Real.pi < qDegreesToRadians b := by
        unfold qDegreesToRadians
        nlinarith
      have hlt : qDegreesToRadians b < 2 * Real.pi := by
        unfold qDegreesToRadians
        nlinarith
      rw [atan2_sin_cos (by linarith) (by linarith)]
      have hdeg : qRadiansToDegrees (qDegreesToRadians b - 2 * Real.pi) = b - 360 := by
        unfold qRadiansToDegrees qDegreesToRadians
        field_simp
        ring
      rw [hdeg]
      unfold normalize0_360
      rw [if_pos (by linarith)]
      ring

/-- Witness for C7 at the constructor state with bearing 135° and width 3. -/
theorem C7_witness :
    (updateSonarBeam initTSAState 135 3).tacticalData.sonarBeam.startPoint = ⟨0, 0⟩ ∧
    (updateSonarBeam initTSAState 135 3).tacticalData.sonarBeam.endPoint =
      ⟨10 * Real.sin (qDegreesToRadians 135), -(10 * Real.cos (qDegreesToRadians 135))⟩ ∧
    ((updateSonarBeam initTSAState 135 3).tacticalData.sonarBeam.endPoint.x) ^ 2 +
      ((updateSonarBeam initTSAState 135 3).tacticalData.sonarBeam.endPoint.y) ^ 2 = 100 ∧
    specBearing ((updateSonarBeam initTSAState 135 3).tacticalData.sonarBeam.endPoint.x)
      (-((updateSonarBeam initTSAState 135 3).tacticalData.sonarBeam.endPoint.y)) = 135 :=
  C7_amended initTSAState 135 3 (by norm_num) (by norm_num)

/-- Claim C8 (counterexample): for coincident endpoints from = to = (0,0) the
code's arrowhead wings are not coincident with the end point: atan2(0,0)
evaluates to 0 and both wings sit 12 px away, so the documented degenerate
fallback (wings coincident with the end point) is not what the code does. -/
theorem C8_counterexample :
    (computeArrowHead ⟨0, 0⟩ ⟨0, 0⟩).1 ≠ (⟨0, 0⟩ : QPointF) ∧
    (computeArrowHead ⟨0, 0⟩ ⟨0, 0⟩).2 ≠ (⟨0, 0⟩ : QPointF) := by
  have hat : atan2 ((0:ℝ) - 0) ((0:ℝ) - 0) = 0 := by
    norm_num [atan2]
  have hcos : 0 < Real.cos (qDegreesToRadians 25) := by
    apply Real.cos_pos_of_mem_Ioo
    constructor
    · unfold qDegreesToRadians
      nlinarith [Real.pi_pos]
    · unfold qDegreesToRadians
      nlinarith [Real.pi_pos]
  have hcomm : Real.pi + qDegreesToRadians 25 = qDegreesToRadians 25 + Real.pi :=
    add_comm _ _
  constructor
  · intro h
    have hx := congrArg QPointF.x h
    simp only [computeArrowHead] at hx
    rw [hat] at hx
    simp only [zero_add] at hx
    rw [Real.cos_pi_sub] at hx
    nlinarith [hcos, hx]
  · intro h
    have hx := congrArg QPointF.x h
    simp only [computeArrowHead] at hx
    rw [hat] at hx
    simp only [zero_add] at hx
    rw [hcomm, Real.cos_add_pi] at hx
    nlinarith [hcos, hx]

/-- Claim C8 (amended): computeArrowHead is total; for coincident endpoints
from = to the shaft angle evaluates to atan2(0,0) = 0, so both wings are
offset from the end point by head length 12 in directions π ∓ 25° (equal
x-offset −12·cos 25°, opposite y-offsets ±12·sin 25°) — a fixed leftward
head of length 12, not coincident with the end point, and no error is
raised. -/
theorem C8_amended (p : QPointF) :
    computeArrowHead p p =
      (⟨p.x - 12 * Real.cos (qDegreesToRadians 25),
        p.y + 12 * Real.sin (qDegreesToRadians 25)⟩,
       ⟨p.x - 12 * Real.cos (qDegreesToRadians 25),
        p.y - 12 * Real.sin (qDegreesToRadians 25)⟩) ∧
    ((computeArrowHead p p).1.x - p.x) ^ 2 +
      ((computeArrowHead p p).1.y - p.y) ^ 2 = 144 := by
  have hat : atan2 (p.y - p.y) (p.x - p.x) = 0 := by
    norm_num [atan2]
  have hcomm : Real.pi + qDegreesToRadians 25 = qDegreesToRadians 25 + Real.pi :=
    add_comm _ _
  have e1 : computeArrowHead p p =
      (⟨p.x - 12 * Real.cos (qDegreesToRadians 25),
        p.y + 12 * Real.sin (qDegreesToRadians 25)⟩,
       ⟨p.x - 12 * Real.cos (qDegreesToRadians 25),
        p.y - 12 * Real.sin (qDegreesToRadians 25)⟩) := by
    simp only [computeArrowHead]
    rw [hat, zero_add, Real.cos_pi_sub, Real.sin_pi_sub, hcomm,
      Real.cos_add_pi, Real.sin_add_pi]
    simp only [Prod.mk.injEq, QPointF.mk.injEq]
    refine ⟨⟨by ring, by ring⟩, by ring, by ring⟩
  refine ⟨e1, ?_⟩
  rw [e1]
  show (p.x - 12 * Real.cos (qDegreesToRadians 25) - p.x) ^ 2 +
      (p.y + 12 * Real.sin (qDegreesToRadians 25) - p.y) ^ 2 = 144
  have hsc := Real.sin_sq_add_cos_sq (qDegreesToRadians 25)
  nlinarith [hsc]

end TSA
